import Mathlib

/-! Verification of the pumpkin-school review and teacher-channel modules.

A shallow embedding of the database logic of the `reviews`, `review` and
`teacherchannel` modules of the pumpkin-school Discord-bot plugin set.

Conventions of the embedding:
* an ORM table is a `List` of row structures, the integer/bigint columns of a row
  become `Nat`, dates are `Nat` (days since an arbitrary epoch);
* `session.query(...).one_or_none()` is `one_or_none` over the filtered list;
* `session.merge` / `session.delete` are insert-or-replace / remove on the
  list, keyed the way SQLAlchemy keys them (by primary key, resp. identity);
* Python code that raises is embedded in `Except String`.
-/

namespace Pumpkin

/-- The SQLAlchemy `Query.one_or_none()` call: `none` on no row, the unique row if
there is exactly one, and a `MultipleResultsFound` error otherwise. -/
def one_or_none {α : Type} : List α → Except String (Option α)
  | [] => .ok none
  | [x] => .ok (some x)
  | _ :: _ :: _ => .error "MultipleResultsFound"

/-- The Python `str.lower()` method (ASCII view, which covers the identifiers used by
the bot; the builtin `String.toLower` of Lean is identical on this range but does
not reduce in the kernel). -/
def lower (s : String) : String := ⟨s.data.map Char.toLower⟩

/-- The Python `str.endswith(suffix)` method. -/
def endswith (s suffix : String) : Bool := suffix.data.isSuffixOf s.data

/-- Replace the first element equal to `old` by `new` (the effect of mutating
an ORM object that sits in a list and flushing the session). -/
def replaceFirst {α : Type} [DecidableEq α] : List α → α → α → List α
  | [], _, _ => []
  | r :: rs, old, new => if r = old then new :: rs else r :: replaceFirst rs old new

/-- Remove the first element equal to `x` (`session.delete` on a row that is
present in the list). -/
def removeFirst {α : Type} [DecidableEq α] : List α → α → List α
  | [], _ => []
  | r :: rs, x => if r = x then rs else r :: removeFirst rs x

/-! ## src/reviews/database.py -/

namespace Reviews

/-- A row of `school_reviews_relevance` (class `ReviewRelevance`), restricted
to one review: `Review.relevance` is the list of rows whose `review` column is
the id of that review, so the `review` foreign key is implicit here. -/
structure ReviewRelevance where
  discord_id : Nat
  vote : Bool
deriving DecidableEq, Repr

/-- Source `Review.vote_up(user)`: scan `self.relevance`; on the first row of this
user set `vote = True` and return, otherwise append a fresh row with
`vote=True`. -/
def Review.vote_up : List ReviewRelevance → Nat → List ReviewRelevance
  | [], uid => [⟨uid, true⟩]
  | r :: rs, uid =>
    if r.discord_id = uid then { r with vote := true } :: rs
    else r :: Review.vote_up rs uid

/-- Source `Review.vote_down(user)`: same loop as `vote_up` with `vote = False`. -/
def Review.vote_down : List ReviewRelevance → Nat → List ReviewRelevance
  | [], uid => [⟨uid, false⟩]
  | r :: rs, uid =>
    if r.discord_id = uid then { r with vote := false } :: rs
    else r :: Review.vote_down rs uid

/-- The common loop shape of `vote_up` and `vote_down` (which differ only in
the Boolean literal they write): update the first row of the user in place,
else append a fresh row. -/
def voteScan : List ReviewRelevance → Nat → Bool → List ReviewRelevance
  | [], uid, v => [⟨uid, v⟩]
  | r :: rs, uid, v =>
    if r.discord_id = uid then { r with vote := v } :: rs
    else r :: voteScan rs uid v

/-- Source `Review.get_positive_votes()`:
`len(list(filter(lambda x: x.vote, self.relevance)))`. -/
def Review.get_positive_votes (relevance : List ReviewRelevance) : Nat :=
  (relevance.filter (fun x => x.vote)).length

/-- Source `Review.get_negative_votes()`:
`len(list(filter(lambda x: not x.vote, self.relevance)))`. -/
def Review.get_negative_votes (relevance : List ReviewRelevance) : Nat :=
  (relevance.filter (fun x => !x.vote)).length

/-- One user, a sequence of `vote_up` (`true`) / `vote_down` (`false`) calls on
one review, applied in order. -/
def applyVotes (uid : Nat) : List ReviewRelevance → List Bool → List ReviewRelevance
  | rel, [] => rel
  | rel, b :: bs =>
    applyVotes uid (if b then Review.vote_up rel uid else Review.vote_down rel uid) bs

/-- A row of `school_reviews_subjects` (class `Subject`). Column order as in
the source: `shortcut` (primary key), `category`, `name`. -/
structure SubjectRow where
  shortcut : String
  category : String
  name : String
deriving DecidableEq, Repr

/-- Source `Subject.get(abbreviation)`: `filter_by(shortcut=abbreviation.lower())`
followed by `.one_or_none()`. Note only the argument is lowercased. -/
def Subject.get (table : List SubjectRow) (abbreviation : String) :
    Except String (Option SubjectRow) :=
  one_or_none (table.filter (fun r => r.shortcut == lower abbreviation))

/-- Source `Subject.add(abbreviation, name, category)`: look the abbreviation up
verbatim; update `name`/`category` of an existing row, otherwise insert a new
row with the abbreviation stored exactly as given. -/
def Subject.add (table : List SubjectRow) (abbreviation name category : String) :
    Except String (List SubjectRow) := do
  let subject ← one_or_none (table.filter (fun r => r.shortcut == abbreviation))
  match subject with
  | some row =>
    .ok (replaceFirst table row { row with name := name, category := category })
  | none => .ok (table ++ [⟨abbreviation, category, name⟩])

end Reviews

/-! ## src/review/database.py -/

namespace SchoolReview

/-- A row of `school_review_subject_relevance` (class `SubjectRelevance`) /
`school_review_teacher_relevance` (class `TeacherRelevance`); the two classes
are field-for-field identical, with primary key `(voter_id, review)`. -/
structure RelevanceRow where
  voter_id : Nat
  vote : Bool
  review : Nat
deriving DecidableEq, Repr

/-- Source `SubjectRelevance.reset(review_id)`: delete every relevance row of the
review. -/
def SubjectRelevance.reset (table : List RelevanceRow) (review_id : Nat) :
    List RelevanceRow :=
  table.filter (fun r => !(r.review == review_id))

/-- Source `TeacherRelevance.reset` is textually identical to
`SubjectRelevance.reset` on the teacher relevance table. -/
def TeacherRelevance.reset (table : List RelevanceRow) (review_id : Nat) :
    List RelevanceRow :=
  SubjectRelevance.reset table review_id

/-- Source `session.merge(row)` on a relevance table: replace the row with the same
primary key `(voter_id, review)`, or append. -/
def mergeRelevance : List RelevanceRow → RelevanceRow → List RelevanceRow
  | [], row => [row]
  | r :: rs, row =>
    if r.voter_id = row.voter_id ∧ r.review = row.review then row :: rs
    else r :: mergeRelevance rs row

/-- Source `SubjectReview.vote(user, vote)`: fetch the relevance row of the user for this
review with `one_or_none`; on `None` delete it (if any), otherwise set its
`vote` (creating the row first when absent) and merge it back. -/
def SubjectReview.vote (table : List RelevanceRow) (ridx uid : Nat)
    (vote : Option Bool) : Except String (List RelevanceRow) := do
  let db_vote ← one_or_none
    (table.filter (fun r => r.review == ridx && r.voter_id == uid))
  match vote with
  | none =>
    match db_vote with
    | none => .ok table
    | some dv => .ok (removeFirst table dv)
  | some b =>
    match db_vote with
    | none => .ok (mergeRelevance table { voter_id := uid, vote := b, review := ridx })
    | some dv => .ok (mergeRelevance table { dv with vote := b })

/-- Source `TeacherReview.vote` is line-for-line identical to `SubjectReview.vote`,
acting on the teacher relevance table. -/
def TeacherReview.vote (table : List RelevanceRow) (ridx uid : Nat)
    (vote : Option Bool) : Except String (List RelevanceRow) :=
  SubjectReview.vote table ridx uid vote

/-- Source `SubjectReview.upvotes`: `count(voter_id) where review == idx and vote is
True` (a `column_property` scalar subquery). -/
def SubjectReview.upvotes (table : List RelevanceRow) (idx : Nat) : Nat :=
  (table.filter (fun r => r.review == idx && r.vote)).length

/-- Source `SubjectReview.downvotes`: `count(voter_id) where review == idx and vote
is False`. -/
def SubjectReview.downvotes (table : List RelevanceRow) (idx : Nat) : Nat :=
  (table.filter (fun r => r.review == idx && !r.vote)).length

/-- One user, a sequence of `SubjectReview.vote(user, True/False)` calls on one
review, applied in order. -/
def applyDBVotes (ridx uid : Nat) :
    List RelevanceRow → List Bool → Except String (List RelevanceRow)
  | table, [] => .ok table
  | table, b :: bs =>
    match SubjectReview.vote table ridx uid (some b) with
    | .error e => .error e
    | .ok t => applyDBVotes ridx uid t bs

/-- One user, a sequence of `TeacherReview.vote(user, True/False)` calls on one
review, applied in order. -/
def applyTeacherVotes (ridx uid : Nat) :
    List RelevanceRow → List Bool → Except String (List RelevanceRow)
  | table, [] => .ok table
  | table, b :: bs =>
    match TeacherReview.vote table ridx uid (some b) with
    | .error e => .error e
    | .ok t => applyTeacherVotes ridx uid t bs

/-- The result of `session.query(Cls).filter_by(...)` when the chain is NOT
closed with `.one_or_none()` / `.all()`: a Query object, not a row. -/
structure Query (α : Type) where
  rows : List α

/-- Python truthiness of a Query object: `Query` defines neither `__bool__`
nor `__len__`, so `if review:` is `True` whatever the query would return. -/
def Query.truthy {α : Type} (_ : Query α) : Bool := true

/-- A row of `school_review_subject_review` (class `SubjectReview`), without
the `idx` autoincrement key: the unique constraint key is
`(author_id, guild_id, subject_id)` and `idx` plays no role in the claims. -/
structure SubjectReviewRow where
  guild_id : Nat
  author_id : Nat
  anonym : Bool
  subject_id : Nat
  guarantor_id : Option Nat
  grade : Int
  text_review : String
  created : Nat
  updated : Nat
deriving DecidableEq, Repr

/-- A row of `school_review_teacher_review` (class `TeacherReview`), without
the `idx` autoincrement key. -/
structure TeacherReviewRow where
  guild_id : Nat
  author_id : Nat
  anonym : Bool
  teacher_id : Nat
  grade : Int
  text_review : String
  created : Nat
  updated : Nat
deriving DecidableEq, Repr

/-- The `grade` attribute validator (`event.listen(..., "set", ...)`), fired
whenever `review.grade = value` is executed on either review class:
`if value < 0 or value > 5: raise ValueError(...)`. -/
def grade_constraint_check (value : Int) : Except String Unit :=
  if value < 0 ∨ value > 5 then .error "Grade must be between 1 and 5"
  else .ok ()

/-- Source `SubjectReview.add(ctx, subject, grade, anonym, text)`.

The source reads
```
review = (session.query(SubjectReview)
          .filter_by(guild_id=...).filter_by(author_id=...)
          .filter_by(subject_id=...))
if review:
    if (date.today() - review.updated) > timedelta(days=30):
        SubjectRelevance.reset(review.idx)
else:
    review = SubjectReview(...)
review.anonym = anonym
...
```
with no `.one_or_none()` after the filters, so `review` is the Query object:
`if review:` is always true, and `review.updated` raises `AttributeError`.
The exception propagates out of `add` before anything is reset or written. -/
def SubjectReview.add (reviews : List SubjectReviewRow)
    (relevance : List RelevanceRow) (guild_id author_id subject_id : Nat)
    (guarantor_id : Option Nat) (grade : Int) (anonym : Bool) (text : String)
    (today : Nat) :
    Except String (List SubjectReviewRow × List RelevanceRow) :=
  let review : Query SubjectReviewRow :=
    ⟨reviews.filter (fun r =>
      r.guild_id == guild_id && r.author_id == author_id
        && r.subject_id == subject_id)⟩
  if review.truthy then
    -- `(date.today() - review.updated)`: a Query has no attribute `updated`.
    .error "AttributeError: Query object has no attribute updated"
  else
    -- Unreachable: a Query object is always truthy. For reference this
    -- branch performs the intended insert-then-update of the source.
    match grade_constraint_check grade with
    | .error e => .error e
    | .ok _ =>
      let row : SubjectReviewRow :=
        { guild_id := guild_id, author_id := author_id, anonym := anonym
          subject_id := subject_id, guarantor_id := guarantor_id
          grade := grade, text_review := text, created := today, updated := today }
      .ok (reviews ++ [row], relevance)

/-- Source `TeacherReview.add(ctx, teacher, grade, anonym, text)`: the same missing
`.one_or_none()` as `SubjectReview.add`, so `review.updated` raises
`AttributeError` on every call; in addition the (unreachable) creation branch
constructs a `SubjectReview` — not a `TeacherReview` — passing it a
`teacher_id` keyword that `SubjectReview` has no column for, which would
raise `TypeError`. -/
def TeacherReview.add (reviews : List TeacherReviewRow)
    (relevance : List RelevanceRow) (guild_id author_id teacher_id : Nat)
    (grade : Int) (anonym : Bool) (text : String) (today : Nat) :
    Except String (List TeacherReviewRow × List RelevanceRow) :=
  let review : Query TeacherReviewRow :=
    ⟨reviews.filter (fun r =>
      r.guild_id == guild_id && r.author_id == author_id
        && r.teacher_id == teacher_id)⟩
  if review.truthy then
    -- `(date.today() - review.updated)`: a Query has no attribute `updated`.
    .error "AttributeError: Query object has no attribute updated"
  else
    -- Unreachable, and itself broken: `review = SubjectReview(..., teacher_id=...)`.
    .error "TypeError: teacher_id is an invalid keyword argument for SubjectReview"

end SchoolReview

/-! ## src/teacherchannel/database.py -/

namespace Teacherchannel

/-- A row of `school_teacherchannel_teacherchannel` (class `TeacherChannel`)
together with its side of the `association` many-to-many table: `teachers` is
the list of associated `Teachers.teacher_id` values. Field order as in the
source: `t_channel_id` (primary key), `guild_id`, `o_channel_id` (unique). -/
structure TCRow where
  t_channel_id : Nat
  guild_id : Nat
  o_channel_id : Nat
  teachers : List Nat
deriving DecidableEq, Repr

/-- Source `TeacherChannel.add(guild_id, t_channel_id, o_channel_id, teacher_id)`:
fetch the row by all three ids with `one_or_none`; if absent insert a fresh
row carrying the teacher, else append the teacher unless already present. -/
def TeacherChannelDB.add (table : List TCRow)
    (guild_id t_channel_id o_channel_id teacher_id : Nat) :
    Except String (List TCRow) := do
  let teacherchannel ← one_or_none (table.filter (fun r =>
    r.guild_id == guild_id && r.t_channel_id == t_channel_id
      && r.o_channel_id == o_channel_id))
  match teacherchannel with
  | none => .ok (table ++ [⟨t_channel_id, guild_id, o_channel_id, [teacher_id]⟩])
  | some row =>
    if teacher_id ∈ row.teachers then .ok table
    else .ok (replaceFirst table row { row with teachers := row.teachers ++ [teacher_id] })

/-- Source `TeacherChannel.remove(guild_id, t_channel_id, teacher_id)`: fetch the row
by `(guild_id, t_channel_id)` (an `AttributeError` on `None.teachers` if it is
absent), drop the first matching teacher from its association list, then
delete the whole row when no teacher is left, else keep the updated row. -/
def TeacherChannelDB.remove (table : List TCRow)
    (guild_id t_channel_id teacher_id : Nat) : Except String (List TCRow) := do
  let teacherchannel ← one_or_none (table.filter (fun r =>
    r.guild_id == guild_id && r.t_channel_id == t_channel_id))
  match teacherchannel with
  | none => .error "AttributeError: NoneType object has no attribute teachers"
  | some row =>
    let ts := row.teachers.erase teacher_id
    if ts.length < 1 then .ok (removeFirst table row)
    else .ok (replaceFirst table row { row with teachers := ts })

end Teacherchannel

/-! ## src/teacherchannel/module.py -/

namespace Teacherchannel

/-- The name suffix of cloned teacher channels. -/
def appendix : String := "_teacher"

/-- The permission-overwrite dict of a channel: target id (member or role) to an
abstract overwrite value. Discord exposes it as a dict, so keys are unique. -/
abbrev Overwrites := AList (fun _ : Nat => Nat)

/-- Python `==` on two overwrite dicts: same key/value pairs, order being
irrelevant. -/
abbrev dictEq (a b : Overwrites) : Prop :=
  (∀ p ∈ a.entries, p ∈ b.entries) ∧ (∀ p ∈ b.entries, p ∈ a.entries)

/-- The guild channel state `_sync` reads and writes. -/
structure Channel where
  name : String
  topic : String
  category : Nat
  overwrites : Overwrites

/-- The "negative change" loop of `_sync`: for each `(target, overwrite)` item
of the before-dict that is not an item of the after-dict, clear the overwrite of the target on the teacher channel (`set_permissions(target, overwrite=None)`)
unless the target is a registered teacher. `iter` walks
`channel_b.overwrites.items()`. -/
def syncNeg (after : List (Sigma fun _ : Nat => Nat)) (teachers : List Nat) :
    List (Sigma fun _ : Nat => Nat) → Overwrites → Overwrites
  | [], t => t
  | p :: iter, t =>
    syncNeg after teachers iter
      (if p ∈ after ∨ p.1 ∈ teachers then t else t.erase p.1)

/-- The "positive change" loop of `_sync`: for each `(target, overwrite)` item
of the after-dict that is not an item of the before-dict, write the new
overwrite to the teacher channel (`set_permissions(target, overwrite=overwrite)`)
unless the target is a registered teacher. `iter` walks
`channel_a.overwrites.items()`. -/
def syncPos (before : List (Sigma fun _ : Nat => Nat)) (teachers : List Nat) :
    List (Sigma fun _ : Nat => Nat) → Overwrites → Overwrites
  | [], t => t
  | p :: iter, t =>
    syncPos before teachers iter
      (if p ∈ before ∨ p.1 ∈ teachers then t else t.insert p.1 p.2)

/-- Source `if channel_a.category != channel_b.category: channel_t.move(category=
channel_a.category, after=channel_a, offset=0)`. -/
def syncCategory (b a t : Channel) : Channel :=
  if a.category ≠ b.category then { t with category := a.category } else t

/-- Source `if channel_a.overwrites != channel_b.overwrites:` run the negative loop
over the before-items, then the positive loop over the after-items. -/
def syncOverwrites (b a t : Channel) (teachers : List Nat) : Channel :=
  if dictEq a.overwrites b.overwrites then t
  else
    { t with
      overwrites :=
        syncPos b.overwrites.entries teachers a.overwrites.entries
          (syncNeg a.overwrites.entries teachers b.overwrites.entries t.overwrites) }

/-- Source `if channel_a.name != channel_b.name and not
channel_b.name.endswith(appendix): channel_t.edit(name=channel_a.name +
appendix)`. -/
def syncName (b a t : Channel) : Channel :=
  if a.name ≠ b.name ∧ endswith b.name appendix = false then
    { t with name := a.name ++ appendix }
  else t

/-- Source `if channel_a.topic != channel_b.topic: channel_t.edit(topic=
channel_a.topic)`. -/
def syncTopic (b a t : Channel) : Channel :=
  if a.topic ≠ b.topic then { t with topic := a.topic } else t

/-- Source `TeacherChannel._sync(channel_b, channel_a, teacherchannel)` in the case
where the teacher channel `t` exists (otherwise the method recreates it and
returns): the four statement groups of the body, applied in source order to
the teacher channel. -/
def Module._sync (b a t : Channel) (teachers : List Nat) : Channel :=
  syncTopic b a (syncName b a (syncOverwrites b a (syncCategory b a t) teachers))

/-- The live `teacherchannel.teachers` association list of the database row
keyed by `(guild_id, t_channel_id)`, as seen while `_recreate_ch` iterates:
the list the loop walks is the very relationship collection that
`TeacherChannelDB.remove` mutates. -/
def getTeachers (table : List TCRow) (guild_id t_channel_id : Nat) : List Nat :=
  match table.find? (fun r => r.guild_id == guild_id && r.t_channel_id == t_channel_id) with
  | some r => r.teachers
  | none => []

/-- The `for teacher in teachers:` loop of `_recreate_ch`, step `i` of the
Python iterator protocol: index into the current state of the aliased
`teachers` list (which `remove` shrinks under the iteration), stop as soon as
the index falls off its end. The returned pair is the database state and the
list of teachers that were granted read/send permissions on the new channel.
`fuel` only bounds the recursion; the initial list length suffices because
the live list never grows. -/
def recreateLoop (guild_id old_t new_t o_ch : Nat) :
    Nat → Nat → List TCRow → List Nat → Except String (List TCRow × List Nat)
  | 0, _, table, granted => .ok (table, granted)
  | fuel + 1, i, table, granted =>
    let live := getTeachers table guild_id old_t
    if h : i < live.length then
      match TeacherChannelDB.remove table guild_id old_t (live.get ⟨i, h⟩) with
      | .error e => .error e
      | .ok t1 =>
        match TeacherChannelDB.add t1 guild_id new_t o_ch (live.get ⟨i, h⟩) with
        | .error e => .error e
        | .ok t2 =>
          recreateLoop guild_id old_t new_t o_ch fuel (i + 1) t2
            (granted ++ [live.get ⟨i, h⟩])
    else .ok (table, granted)

/-- Source `TeacherChannel._recreate_ch(teacherchannel, channel_o)`: clone the
original channel (name `channel_o.name + appendix`), then for each teacher of
the pair move its database association from the old `t_channel_id` to the new
id of the new channel and grant it read/send permissions on the clone. The Discord
side effects (clone, move after the original) happen outside the database
state; the returned pair captures the database rows and the granted
teachers. -/
def Module._recreate_ch (table : List TCRow) (guild_id old_t new_t o_ch : Nat) :
    Except String (List TCRow × List Nat) :=
  recreateLoop guild_id old_t new_t o_ch (getTeachers table guild_id old_t).length
    0 table []

end Teacherchannel

/-! Theorems.

Helper lemmas first, then one theorem per claim (witnesses and
counterexamples next to their claim).
-/

namespace Reviews

theorem vote_up_eq_voteScan (rel : List ReviewRelevance) (uid : Nat) :
    Review.vote_up rel uid = voteScan rel uid true := by
  induction rel with
  | nil => rfl
  | cons r rs ih =>
    by_cases h : r.discord_id = uid <;> simp [Review.vote_up, voteScan, h, ih]

theorem vote_down_eq_voteScan (rel : List ReviewRelevance) (uid : Nat) :
    Review.vote_down rel uid = voteScan rel uid false := by
  induction rel with
  | nil => rfl
  | cons r rs ih =>
    by_cases h : r.discord_id = uid <;> simp [Review.vote_down, voteScan, h, ih]

theorem countP_cons_self (uid : Nat) (r : ReviewRelevance) (rs : List ReviewRelevance)
    (hid : r.discord_id = uid) :
    (r :: rs).countP (fun x => x.discord_id == uid)
      = rs.countP (fun x => x.discord_id == uid) + 1 := by
  rw [List.countP_cons]
  simp [hid]

theorem countP_cons_other (uid : Nat) (r : ReviewRelevance) (rs : List ReviewRelevance)
    (hid : ¬r.discord_id = uid) :
    (r :: rs).countP (fun x => x.discord_id == uid)
      = rs.countP (fun x => x.discord_id == uid) := by
  rw [List.countP_cons]
  simp [hid]

theorem countP_voteScan (uid : Nat) (v : Bool) :
    ∀ rel : List ReviewRelevance,
      rel.countP (fun x => x.discord_id == uid) ≤ 1 →
      (voteScan rel uid v).countP (fun x => x.discord_id == uid) = 1
  | [], _ => by simp [voteScan]
  | r :: rs, h => by
    by_cases hid : r.discord_id = uid
    · have hscan : voteScan (r :: rs) uid v = { r with vote := v } :: rs := by
        simp [voteScan, hid]
      rw [countP_cons_self uid r rs hid] at h
      have h2 : rs.countP (fun x => x.discord_id == uid) = 0 := by omega
      rw [hscan, countP_cons_self uid { r with vote := v } rs
        (show ({ r with vote := v } : ReviewRelevance).discord_id = uid from hid), h2]
    · have hscan : voteScan (r :: rs) uid v = r :: voteScan rs uid v := by
        simp [voteScan, hid]
      rw [countP_cons_other uid r rs hid] at h
      rw [hscan, countP_cons_other uid r _ hid]
      exact countP_voteScan uid v rs h

theorem mem_voteScan (uid : Nat) (v : Bool) :
    ∀ rel : List ReviewRelevance,
      rel.countP (fun x => x.discord_id == uid) ≤ 1 →
      ∀ x ∈ voteScan rel uid v, x.discord_id = uid → x.vote = v
  | [], _ => by
    intro x hx
    simp [voteScan] at hx
    simp [hx]
  | r :: rs, h => by
    intro x hx hxid
    by_cases hid : r.discord_id = uid
    · have hscan : voteScan (r :: rs) uid v = { r with vote := v } :: rs := by
        simp [voteScan, hid]
      rw [hscan] at hx
      rcases List.mem_cons.1 hx with hx | hx
      · simp [hx]
      · exfalso
        rw [countP_cons_self uid r rs hid] at h
        have h2 : rs.countP (fun x => x.discord_id == uid) = 0 := by omega
        have := List.countP_eq_zero.1 h2 x hx
        simp [hxid] at this
    · have hscan : voteScan (r :: rs) uid v = r :: voteScan rs uid v := by
        simp [voteScan, hid]
      rw [hscan] at hx
      rcases List.mem_cons.1 hx with hx | hx
      · exact absurd (hx ▸ hxid) hid
      · rw [countP_cons_other uid r rs hid] at h
        exact mem_voteScan uid v rs h x hx hxid

theorem applyVotes_append (uid : Nat) (l1 l2 : List Bool) :
    ∀ rel, applyVotes uid rel (l1 ++ l2) = applyVotes uid (applyVotes uid rel l1) l2 := by
  induction l1 with
  | nil => intro rel; rfl
  | cons b bs ih => intro rel; simp [applyVotes, ih]

theorem applyVotes_step (uid : Nat) (rel : List ReviewRelevance) (b : Bool) :
    (if b then Review.vote_up rel uid else Review.vote_down rel uid) = voteScan rel uid b := by
  cases b <;> simp [vote_up_eq_voteScan, vote_down_eq_voteScan]

theorem countP_applyVotes_le (uid : Nat) :
    ∀ (ops : List Bool) (rel : List ReviewRelevance),
      rel.countP (fun r => r.discord_id == uid) ≤ 1 →
      (applyVotes uid rel ops).countP (fun r => r.discord_id == uid) ≤ 1
  | [], rel, h => h
  | b :: bs, rel, h => by
    simp only [applyVotes]
    exact countP_applyVotes_le uid bs _
      (by rw [applyVotes_step]; exact le_of_eq (countP_voteScan uid b rel h))

end Reviews

namespace SchoolReview

theorem relKey_cons_self (ridx uid : Nat) (r : RelevanceRow) (rs : List RelevanceRow)
    (h1 : r.review = ridx) (h2 : r.voter_id = uid) :
    (r :: rs).countP (fun x => x.review == ridx && x.voter_id == uid)
      = rs.countP (fun x => x.review == ridx && x.voter_id == uid) + 1 := by
  rw [List.countP_cons]
  simp [h1, h2]

theorem relKey_cons_other (ridx uid : Nat) (r : RelevanceRow) (rs : List RelevanceRow)
    (h : ¬(r.review = ridx ∧ r.voter_id = uid)) :
    (r :: rs).countP (fun x => x.review == ridx && x.voter_id == uid)
      = rs.countP (fun x => x.review == ridx && x.voter_id == uid) := by
  rw [List.countP_cons]
  have : (r.review == ridx && r.voter_id == uid) = false := by
    rcases Decidable.not_and_iff_or_not.1 h with h1 | h1 <;> simp [h1]
  simp [this]

theorem countP_mergeRelevance (ridx uid : Nat) (row : RelevanceRow)
    (hrow : row.review = ridx ∧ row.voter_id = uid) :
    ∀ table : List RelevanceRow,
      table.countP (fun x => x.review == ridx && x.voter_id == uid) ≤ 1 →
      (mergeRelevance table row).countP (fun x => x.review == ridx && x.voter_id == uid) = 1
  | [], _ => by simp [mergeRelevance, relKey_cons_self ridx uid row [] hrow.1 hrow.2]
  | r :: rs, h => by
    by_cases hk : r.voter_id = row.voter_id ∧ r.review = row.review
    · have hmerge : mergeRelevance (r :: rs) row = row :: rs := by
        simp [mergeRelevance, hk]
      have hr : r.review = ridx ∧ r.voter_id = uid := ⟨hk.2.trans hrow.1, hk.1.trans hrow.2⟩
      rw [relKey_cons_self ridx uid r rs hr.1 hr.2] at h
      have h2 : rs.countP (fun x => x.review == ridx && x.voter_id == uid) = 0 := by omega
      rw [hmerge, relKey_cons_self ridx uid row rs hrow.1 hrow.2, h2]
    · have hmerge : mergeRelevance (r :: rs) row = r :: mergeRelevance rs row := by
        simp [mergeRelevance, hk]
      have hr : ¬(r.review = ridx ∧ r.voter_id = uid) := by
        rintro ⟨e1, e2⟩
        exact hk ⟨e2.trans hrow.2.symm, e1.trans hrow.1.symm⟩
      rw [relKey_cons_other ridx uid r rs hr] at h
      rw [hmerge, relKey_cons_other ridx uid r _ hr]
      exact countP_mergeRelevance ridx uid row hrow rs h

theorem mem_mergeRelevance (ridx uid : Nat) (row : RelevanceRow)
    (hrow : row.review = ridx ∧ row.voter_id = uid) :
    ∀ table : List RelevanceRow,
      table.countP (fun x => x.review == ridx && x.voter_id == uid) ≤ 1 →
      ∀ x ∈ mergeRelevance table row, x.review = ridx → x.voter_id = uid → x = row
  | [], _ => by
    intro x hx _ _
    simpa [mergeRelevance] using hx
  | r :: rs, h => by
    intro x hx hx1 hx2
    by_cases hk : r.voter_id = row.voter_id ∧ r.review = row.review
    · have hmerge : mergeRelevance (r :: rs) row = row :: rs := by
        simp [mergeRelevance, hk]
      rw [hmerge] at hx
      rcases List.mem_cons.1 hx with hx | hx
      · exact hx
      · exfalso
        have hr : r.review = ridx ∧ r.voter_id = uid := ⟨hk.2.trans hrow.1, hk.1.trans hrow.2⟩
        rw [relKey_cons_self ridx uid r rs hr.1 hr.2] at h
        have h2 : rs.countP (fun x => x.review == ridx && x.voter_id == uid) = 0 := by omega
        have := List.countP_eq_zero.1 h2 x hx
        simp [hx1, hx2] at this
    · have hmerge : mergeRelevance (r :: rs) row = r :: mergeRelevance rs row := by
        simp [mergeRelevance, hk]
      have hr : ¬(r.review = ridx ∧ r.voter_id = uid) := by
        rintro ⟨e1, e2⟩
        exact hk ⟨e2.trans hrow.2.symm, e1.trans hrow.1.symm⟩
      rw [hmerge] at hx
      rcases List.mem_cons.1 hx with hx | hx
      · exact absurd ⟨hx ▸ hx1, hx ▸ hx2⟩ hr
      · rw [relKey_cons_other ridx uid r rs hr] at h
        exact mem_mergeRelevance ridx uid row hrow rs h x hx hx1 hx2

theorem vote_step (table : List RelevanceRow) (ridx uid : Nat) (b : Bool)
    (h : table.countP (fun x => x.review == ridx && x.voter_id == uid) ≤ 1) :
    ∃ t, SubjectReview.vote table ridx uid (some b) = .ok t
      ∧ t.countP (fun x => x.review == ridx && x.voter_id == uid) = 1
      ∧ ∀ x ∈ t, x.review = ridx → x.voter_id = uid → x.vote = b := by
  have hlen : (table.filter (fun x => x.review == ridx && x.voter_id == uid)).length ≤ 1 := by
    rw [← List.countP_eq_length_filter]
    exact h
  rcases hfil : table.filter (fun x => x.review == ridx && x.voter_id == uid) with
    _ | ⟨dv, _ | ⟨dv2, rest⟩⟩
  · refine ⟨mergeRelevance table ⟨uid, b, ridx⟩, ?_, ?_, ?_⟩
    · simp [SubjectReview.vote, hfil, one_or_none, Bind.bind, Except.bind]
    · exact countP_mergeRelevance ridx uid ⟨uid, b, ridx⟩ ⟨rfl, rfl⟩ table h
    · intro x hx hx1 hx2
      have := mem_mergeRelevance ridx uid ⟨uid, b, ridx⟩ ⟨rfl, rfl⟩ table h x hx hx1 hx2
      simp [this]
  · have hdv : dv.review = ridx ∧ dv.voter_id = uid := by
      have : dv ∈ table.filter (fun x => x.review == ridx && x.voter_id == uid) := by
        rw [hfil]; exact List.mem_singleton_self dv
      have := List.of_mem_filter this
      simpa using this
    refine ⟨mergeRelevance table { dv with vote := b }, ?_, ?_, ?_⟩
    · simp [SubjectReview.vote, hfil, one_or_none, Bind.bind, Except.bind]
    · exact countP_mergeRelevance ridx uid { dv with vote := b } ⟨hdv.1, hdv.2⟩ table h
    · intro x hx hx1 hx2
      have := mem_mergeRelevance ridx uid { dv with vote := b } ⟨hdv.1, hdv.2⟩ table h x hx hx1 hx2
      simp [this]
  · exfalso
    rw [hfil] at hlen
    simp at hlen

theorem applyDBVotes_ok (ridx uid : Nat) :
    ∀ (ops : List Bool) (v : Bool) (table : List RelevanceRow),
      table.countP (fun x => x.review == ridx && x.voter_id == uid) ≤ 1 →
      ∃ t, applyDBVotes ridx uid table (ops ++ [v]) = .ok t
        ∧ t.countP (fun x => x.review == ridx && x.voter_id == uid) = 1
        ∧ ∀ x ∈ t, x.review = ridx → x.voter_id = uid → x.vote = v
  | [], v, table, h => by
    rcases vote_step table ridx uid v h with ⟨t, hok, hc, hm⟩
    exact ⟨t, by simp [applyDBVotes, hok], hc, hm⟩
  | b :: bs, v, table, h => by
    rcases vote_step table ridx uid b h with ⟨t1, hok, hc, _⟩
    rcases applyDBVotes_ok ridx uid bs v t1 (le_of_eq hc) with ⟨t, hok2, hc2, hm2⟩
    refine ⟨t, ?_, hc2, hm2⟩
    simpa [applyDBVotes, hok] using hok2

theorem applyTeacherVotes_eq (ridx uid : Nat) :
    ∀ (ops : List Bool) (table : List RelevanceRow),
      applyTeacherVotes ridx uid table ops = applyDBVotes ridx uid table ops
  | [], table => rfl
  | b :: bs, table => by
    simp only [applyTeacherVotes, applyDBVotes, TeacherReview.vote]
    rcases hv : SubjectReview.vote table ridx uid (some b) with e | t
    · rfl
    · exact applyTeacherVotes_eq ridx uid bs t

end SchoolReview

theorem filter_length_split {α : Type} (p : α → Bool) :
    ∀ l : List α, (l.filter p).length + (l.filter (fun a => !p a)).length = l.length
  | [] => rfl
  | a :: l => by
    have ih := filter_length_split p l
    cases hp : p a <;> simp [List.filter_cons, hp] <;> omega

theorem filter_and_eq {α : Type} (p q : α → Bool) (l : List α) :
    l.filter (fun a => p a && q a) = (l.filter p).filter q := by
  induction l with
  | nil => rfl
  | cons a l ih =>
    cases hp : p a <;> cases hq : q a <;> simp [List.filter_cons, hp, hq, ih]

/-- C1. One vote per user: after any non-empty sequence of `vote_up`/`vote_down`
calls (src/reviews) or `vote(user, True/False)` calls (src/review, both
`SubjectReview.vote` and `TeacherReview.vote`) by one user on one review,
exactly one relevance row exists for the (review, user) pair — in particular
at most one — and its vote value is the one given by that user in the most recent
call. The hypothesis is the (primary-key-guaranteed) absence of duplicate
rows for the pair in the starting state. -/
theorem claim_C1 :
    (∀ (rel : List Reviews.ReviewRelevance) (uid : Nat) (ops : List Bool) (v : Bool),
      rel.countP (fun x => x.discord_id == uid) ≤ 1 →
      (Reviews.applyVotes uid rel (ops ++ [v])).countP (fun x => x.discord_id == uid) = 1
      ∧ ∀ x ∈ Reviews.applyVotes uid rel (ops ++ [v]), x.discord_id = uid → x.vote = v)
    ∧ (∀ (table : List SchoolReview.RelevanceRow) (ridx uid : Nat) (ops : List Bool) (v : Bool),
      table.countP (fun x => x.review == ridx && x.voter_id == uid) ≤ 1 →
      ∃ t, SchoolReview.applyDBVotes ridx uid table (ops ++ [v]) = .ok t
        ∧ t.countP (fun x => x.review == ridx && x.voter_id == uid) = 1
        ∧ ∀ x ∈ t, x.review = ridx → x.voter_id = uid → x.vote = v)
    ∧ (∀ (table : List SchoolReview.RelevanceRow) (ridx uid : Nat) (ops : List Bool) (v : Bool),
      table.countP (fun x => x.review == ridx && x.voter_id == uid) ≤ 1 →
      ∃ t, SchoolReview.applyTeacherVotes ridx uid table (ops ++ [v]) = .ok t
        ∧ t.countP (fun x => x.review == ridx && x.voter_id == uid) = 1
        ∧ ∀ x ∈ t, x.review = ridx → x.voter_id = uid → x.vote = v) := by
  refine ⟨fun rel uid ops v h => ?_, fun table ridx uid ops v h => ?_,
    fun table ridx uid ops v h => ?_⟩
  · have hs := Reviews.countP_applyVotes_le uid ops rel h
    have e : Reviews.applyVotes uid rel (ops ++ [v])
        = Reviews.voteScan (Reviews.applyVotes uid rel ops) uid v := by
      rw [Reviews.applyVotes_append]
      simp [Reviews.applyVotes, Reviews.applyVotes_step]
    rw [e]
    exact ⟨Reviews.countP_voteScan uid v _ hs, Reviews.mem_voteScan uid v _ hs⟩
  · exact SchoolReview.applyDBVotes_ok ridx uid ops v table h
  · rw [SchoolReview.applyTeacherVotes_eq]
    exact SchoolReview.applyDBVotes_ok ridx uid ops v table h

theorem claim_C1_witness :
    ((Reviews.applyVotes 9 [] ([true] ++ [false])).countP (fun x => x.discord_id == 9) = 1
      ∧ ∀ x ∈ Reviews.applyVotes 9 [] ([true] ++ [false]), x.discord_id = 9 → x.vote = false)
    ∧ (∃ t, SchoolReview.applyDBVotes 1 2 [] ([] ++ [true]) = .ok t
        ∧ t.countP (fun x => x.review == 1 && x.voter_id == 2) = 1
        ∧ ∀ x ∈ t, x.review = 1 → x.voter_id = 2 → x.vote = true)
    ∧ (∃ t, SchoolReview.applyTeacherVotes 1 2 [] ([false] ++ [true]) = .ok t
        ∧ t.countP (fun x => x.review == 1 && x.voter_id == 2) = 1
        ∧ ∀ x ∈ t, x.review = 1 → x.voter_id = 2 → x.vote = true) :=
  ⟨claim_C1.1 [] 9 [true] false (by decide),
   claim_C1.2.1 [] 1 2 [] true (by decide),
   claim_C1.2.2 [] 1 2 [false] true (by decide)⟩

/-- C2. Vote tallying is a count over the relevance join table:
`get_positive_votes` (resp. the `upvotes` column property) counts the rows of
the review whose vote is `True`, `get_negative_votes` (resp. `downvotes`)
those whose vote is `False`, and — each voter having at most one row, as the
primary key guarantees — their sum is the number of distinct voters on the
review. -/
theorem claim_C2 :
    (∀ rel : List Reviews.ReviewRelevance,
      Reviews.Review.get_positive_votes rel = rel.countP (fun x => x.vote)
      ∧ Reviews.Review.get_negative_votes rel = rel.countP (fun x => !x.vote)
      ∧ ((rel.map (fun x => x.discord_id)).Nodup →
          Reviews.Review.get_positive_votes rel + Reviews.Review.get_negative_votes rel
            = (rel.map (fun x => x.discord_id)).dedup.length))
    ∧ (∀ (table : List SchoolReview.RelevanceRow) (idx : Nat),
      SchoolReview.SubjectReview.upvotes table idx
          = table.countP (fun x => x.review == idx && x.vote)
      ∧ SchoolReview.SubjectReview.downvotes table idx
          = table.countP (fun x => x.review == idx && !x.vote)
      ∧ (((table.filter (fun x => x.review == idx)).map (fun x => x.voter_id)).Nodup →
          SchoolReview.SubjectReview.upvotes table idx
            + SchoolReview.SubjectReview.downvotes table idx
            = ((table.filter (fun x => x.review == idx)).map (fun x => x.voter_id)).dedup.length)) := by
  constructor
  · intro rel
    refine ⟨by rw [Reviews.Review.get_positive_votes, List.countP_eq_length_filter],
      by rw [Reviews.Review.get_negative_votes, List.countP_eq_length_filter], fun hnd => ?_⟩
    rw [List.dedup_eq_self.2 hnd, List.length_map]
    exact filter_length_split (fun x => x.vote) rel
  · intro table idx
    refine ⟨by rw [SchoolReview.SubjectReview.upvotes, List.countP_eq_length_filter],
      by rw [SchoolReview.SubjectReview.downvotes, List.countP_eq_length_filter], fun hnd => ?_⟩
    rw [List.dedup_eq_self.2 hnd, List.length_map]
    rw [SchoolReview.SubjectReview.upvotes, SchoolReview.SubjectReview.downvotes]
    rw [filter_and_eq (fun x => x.review == idx) (fun x => x.vote) table]
    rw [filter_and_eq (fun x => x.review == idx) (fun x => !x.vote) table]
    exact filter_length_split (fun x => x.vote) (table.filter (fun x => x.review == idx))

theorem claim_C2_witness :
    (Reviews.Review.get_positive_votes [⟨1, true⟩, ⟨2, false⟩]
        + Reviews.Review.get_negative_votes [⟨1, true⟩, ⟨2, false⟩]
      = (([⟨1, true⟩, ⟨2, false⟩] : List Reviews.ReviewRelevance).map
          (fun x => x.discord_id)).dedup.length)
    ∧ (SchoolReview.SubjectReview.upvotes [⟨7, true, 3⟩] 3
        + SchoolReview.SubjectReview.downvotes [⟨7, true, 3⟩] 3
      = ((([⟨7, true, 3⟩] : List SchoolReview.RelevanceRow).filter
          (fun x => x.review == 3)).map (fun x => x.voter_id)).dedup.length) :=
  ⟨(claim_C2.1 [⟨1, true⟩, ⟨2, false⟩]).2.2 (by decide),
   (claim_C2.2 [⟨7, true, 3⟩] 3).2.2 (by decide)⟩

/-- C8. The `grade` setter validator raises `ValueError` if and only if the
assigned value is negative or exceeds 5; the boundary value 0 is accepted
even though the error message announces a 1–5 range. -/
theorem claim_C8 :
    (∀ value : Int,
      (∃ msg, SchoolReview.grade_constraint_check value = .error msg)
        ↔ (value < 0 ∨ value > 5))
    ∧ SchoolReview.grade_constraint_check 0 = .ok ()
    ∧ SchoolReview.grade_constraint_check (-1) = .error "Grade must be between 1 and 5"
    ∧ SchoolReview.grade_constraint_check 6 = .error "Grade must be between 1 and 5" := by
  refine ⟨fun value => ⟨?_, ?_⟩, ?_, ?_, ?_⟩
  · rintro ⟨msg, hmsg⟩
    by_cases hc : value < 0 ∨ value > 5
    · exact hc
    · simp [SchoolReview.grade_constraint_check, hc] at hmsg
  · intro hc
    exact ⟨"Grade must be between 1 and 5", by simp [SchoolReview.grade_constraint_check, hc]⟩
  · simp [SchoolReview.grade_constraint_check]
  · simp [SchoolReview.grade_constraint_check]
  · simp [SchoolReview.grade_constraint_check]

theorem claim_C8_witness :
    ∃ msg, SchoolReview.grade_constraint_check 6 = .error msg :=
  (claim_C8.1 6).mpr (by norm_num)

/-- C3. Fails on the code: `SubjectReview.add` omits `.one_or_none()` after its
filters, so `review` is the Query object; `if review:` is always true and
`review.updated` raises `AttributeError` before any vote reset or field
update happens — here evaluated on a state holding a matching review whose
last update lies 40 days in the past (today = 100, updated = 60) together
with one relevance vote, where the claim promises a reset and an update. -/
theorem claim_C3_code_bug :
    ([(⟨1, 2, true, 3, none, 2, "old", 50, 60⟩ : SchoolReview.SubjectReviewRow)].filter
        (fun r => r.guild_id == 1 && r.author_id == 2 && r.subject_id == 3)
      = [⟨1, 2, true, 3, none, 2, "old", 50, 60⟩])
    ∧ (100 - 60 > 30)
    ∧ SchoolReview.SubjectReview.add
        [⟨1, 2, true, 3, none, 2, "old", 50, 60⟩] [⟨7, true, 0⟩] 1 2 3 none 1 false "new" 100
      = .error "AttributeError: Query object has no attribute updated" :=
  ⟨rfl, by norm_num, rfl⟩

/-- C7. Fails on the code: `TeacherReview.add` has the same missing
`.one_or_none()`, so even with no existing review by the author the Query
object is truthy, `review.updated` raises `AttributeError`, and no
`TeacherReview` record is ever created or returned (the creation branch is
unreachable — and would construct a `SubjectReview` if it were reached).
Evaluated on the empty review table. -/
theorem claim_C7_code_bug :
    SchoolReview.TeacherReview.add [] [] 1 2 3 1 true "text" 100
      = .error "AttributeError: Query object has no attribute updated" :=
  rfl

theorem countP_shortcut_le_one (A : String) :
    ∀ s : List Reviews.SubjectRow, (s.map (fun r => r.shortcut)).Nodup →
      (s.filter (fun r => r.shortcut == A)).length ≤ 1
  | [], _ => by simp
  | r :: rs, hnd => by
    rw [List.map_cons, List.nodup_cons] at hnd
    cases hA : (r.shortcut == A) with
    | false =>
      rw [List.filter_cons_of_neg (by rw [hA]; exact Bool.false_ne_true)]
      exact countP_shortcut_le_one A rs hnd.2
    | true =>
      rw [List.filter_cons_of_pos (by rw [hA])]
      have hempty : rs.filter (fun x => x.shortcut == A) = [] := by
        rw [List.filter_eq_nil_iff]
        intro x hx hxA
        have hxA2 : x.shortcut = A := by simpa using hxA
        have hrA : r.shortcut = A := by simpa using hA
        exact hnd.1 (List.mem_map.2 ⟨x, hx, hxA2.trans hrA.symm⟩)
      rw [hempty]
      simp

theorem filter_replaceFirst_single {α : Type} [DecidableEq α] (p : α → Bool) :
    ∀ (s : List α) (row new : α), s.filter p = [row] → p new = true →
      (replaceFirst s row new).filter p = [new]
  | [], row, new => by
    intro h
    simp at h
  | r :: rs, row, new => by
    intro hfil hnew
    by_cases hr : r = row
    · subst hr
      cases hp : p r with
      | true =>
        rw [List.filter_cons_of_pos (by rw [hp])] at hfil
        have htail : rs.filter p = [] := by
          rw [List.cons.injEq] at hfil
          exact hfil.2
        rw [show replaceFirst (r :: rs) r new = new :: rs by simp [replaceFirst]]
        rw [List.filter_cons_of_pos (by rw [hnew]), htail]
      | false =>
        rw [List.filter_cons_of_neg (by rw [hp]; exact Bool.false_ne_true)] at hfil
        have : p r = true := List.of_mem_filter (hfil ▸ List.mem_singleton_self r)
        rw [hp] at this
        exact absurd this Bool.false_ne_true
    · have hrep : replaceFirst (r :: rs) row new = r :: replaceFirst rs row new := by
        simp [replaceFirst, hr]
      cases hp : p r with
      | true =>
        rw [List.filter_cons_of_pos (by rw [hp])] at hfil
        rw [List.cons.injEq] at hfil
        exact absurd hfil.1 hr
      | false =>
        rw [List.filter_cons_of_neg (by rw [hp]; exact Bool.false_ne_true)] at hfil
        rw [hrep, List.filter_cons_of_neg (by rw [hp]; exact Bool.false_ne_true)]
        exact filter_replaceFirst_single p rs row new hfil hnew

/-- C10 counterexample. For the uppercase abbreviation "X", `Subject.add`
stores the shortcut verbatim, but `Subject.get` lowercases its argument
before the lookup, so the just-stored subject is not returned, and the unrestricted
add/get round-trip of the claim fails. -/
theorem claim_C10_counterexample :
    Reviews.Subject.add [] "X" "Math" "core" = .ok [⟨"X", "core", "Math"⟩]
    ∧ Reviews.Subject.get [⟨"X", "core", "Math"⟩] "X" = .ok none := by
  constructor <;> rfl

/-- C10 as amended. For every abbreviation that is already lowercase (so that
the lowercasing in `Subject.get` is the identity on it), `Subject.get` after
`Subject.add` returns the subject just stored: the row with that shortcut and
the new name and category. The hypothesis `Nodup` is the primary-key
uniqueness of `shortcut`. -/
theorem claim_C10_amended (s : List Reviews.SubjectRow) (A n c : String)
    (hA : lower A = A) (hwf : (s.map (fun r => r.shortcut)).Nodup) :
    ∃ s2, Reviews.Subject.add s A n c = .ok s2
      ∧ Reviews.Subject.get s2 A = .ok (some ⟨A, c, n⟩) := by
  have hle := countP_shortcut_le_one A s hwf
  rcases hfil : s.filter (fun r => r.shortcut == A) with _ | ⟨row, _ | ⟨row2, rest⟩⟩
  · refine ⟨s ++ [⟨A, c, n⟩], ?_, ?_⟩
    · simp [Reviews.Subject.add, hfil, one_or_none, Bind.bind, Except.bind]
    · simp only [Reviews.Subject.get, hA]
      rw [List.filter_append, hfil]
      simp [one_or_none]
  · have hrowA : row.shortcut = A := by
      have hm : row ∈ s.filter (fun r => r.shortcut == A) := by
        rw [hfil]
        exact List.mem_singleton_self row
      simpa using List.of_mem_filter hm
    refine ⟨replaceFirst s row ⟨row.shortcut, c, n⟩, ?_, ?_⟩
    · simp [Reviews.Subject.add, hfil, one_or_none, Bind.bind, Except.bind]
    · have hfil2 := filter_replaceFirst_single (fun r => r.shortcut == A) s row
        ⟨row.shortcut, c, n⟩ hfil (by simp [hrowA])
      simp only [Reviews.Subject.get, hA]
      rw [hfil2, hrowA]
      rfl
  · exfalso
    rw [hfil] at hle
    simp at hle

theorem claim_C10_witness :
    ∃ s2, Reviews.Subject.add [] "abc" "Algebra" "core" = .ok s2
      ∧ Reviews.Subject.get s2 "abc" = .ok (some ⟨"abc", "core", "Algebra"⟩) :=
  claim_C10_amended [] "abc" "Algebra" "core" (by decide) (by simp)

theorem removeFirst_append_not_mem {α : Type} [DecidableEq α] :
    ∀ (pre : List α) (x : α) (post : List α), (∀ r ∈ pre, r ≠ x) →
      removeFirst (pre ++ x :: post) x = pre ++ post
  | [], x, post, _ => by simp [removeFirst]
  | r :: rs, x, post, h => by
    have hr : r ≠ x := h r (List.mem_cons_self r rs)
    simp only [List.cons_append, removeFirst, if_neg hr]
    exact congrArg (fun l => r :: l)
      (removeFirst_append_not_mem rs x post (fun a ha => h a (List.mem_cons_of_mem r ha)))

theorem replaceFirst_append_not_mem {α : Type} [DecidableEq α] :
    ∀ (pre : List α) (old new : α) (post : List α), (∀ r ∈ pre, r ≠ old) →
      replaceFirst (pre ++ old :: post) old new = pre ++ new :: post
  | [], old, new, post, _ => by simp [replaceFirst]
  | r :: rs, old, new, post, h => by
    have hr : r ≠ old := h r (List.mem_cons_self r rs)
    simp only [List.cons_append, replaceFirst, if_neg hr]
    exact congrArg (fun l => r :: l)
      (replaceFirst_append_not_mem rs old new post (fun a ha => h a (List.mem_cons_of_mem r ha)))

theorem mem_replaceFirst {α : Type} [DecidableEq α] :
    ∀ (s : List α) (old new x : α), x ∈ replaceFirst s old new → x ∈ s ∨ x = new
  | [], old, new, x => by
    intro h
    simp [replaceFirst] at h
  | r :: rs, old, new, x => by
    intro h
    by_cases hr : r = old
    · simp only [replaceFirst, if_pos hr] at h
      rcases List.mem_cons.1 h with h | h
      · right; exact h
      · left; exact List.mem_cons_of_mem r h
    · simp only [replaceFirst, if_neg hr] at h
      rcases List.mem_cons.1 h with h | h
      · left; exact h ▸ List.mem_cons_self r rs
      · rcases mem_replaceFirst rs old new x h with h | h
        · left; exact List.mem_cons_of_mem r h
        · right; exact h

theorem mem_removeFirst {α : Type} [DecidableEq α] :
    ∀ (s : List α) (y x : α), x ∈ removeFirst s y → x ∈ s
  | [], y, x => by
    intro h
    simp [removeFirst] at h
  | r :: rs, y, x => by
    intro h
    by_cases hr : r = y
    · simp only [removeFirst, if_pos hr] at h
      exact List.mem_cons_of_mem r h
    · simp only [removeFirst, if_neg hr] at h
      rcases List.mem_cons.1 h with h | h
      · exact h ▸ List.mem_cons_self r rs
      · exact List.mem_cons_of_mem r (mem_removeFirst rs y x h)

theorem tc_filter_key (g t : Nat) :
    ∀ (pre : List Teacherchannel.TCRow),
      (∀ r ∈ pre, ¬(r.guild_id = g ∧ r.t_channel_id = t)) →
      pre.filter (fun r => r.guild_id == g && r.t_channel_id == t) = []
  | [], _ => rfl
  | r :: rs, h => by
    have hr := h r (List.mem_cons_self r rs)
    have hb : (r.guild_id == g && r.t_channel_id == t) = false := by
      rcases Decidable.not_and_iff_or_not.1 hr with h1 | h1 <;> simp [h1]
    rw [List.filter_cons_of_neg (by rw [hb]; exact Bool.false_ne_true)]
    exact tc_filter_key g t rs (fun a ha => h a (List.mem_cons_of_mem r ha))

/-- C9. `TeacherChannel.remove(guild_id, t_channel_id, teacher_id)` deletes
the association of the named teacher; when that leaves the channel pair with zero
teachers the whole row is deleted, otherwise the row stays with its other
teacher associations (and all other rows) unchanged. Together with
`TeacherChannel.add` always attaching a teacher to a freshly created row,
every stored row keeps at least one assigned teacher. -/
theorem claim_C9 :
    (∀ (pre post : List Teacherchannel.TCRow) (row : Teacherchannel.TCRow) (g t tid : Nat),
      row.guild_id = g → row.t_channel_id = t →
      (∀ r ∈ pre, ¬(r.guild_id = g ∧ r.t_channel_id = t)) →
      (∀ r ∈ post, ¬(r.guild_id = g ∧ r.t_channel_id = t)) →
      Teacherchannel.TeacherChannelDB.remove (pre ++ row :: post) g t tid =
        .ok (if (row.teachers.erase tid).length < 1 then pre ++ post
             else pre ++ { row with teachers := row.teachers.erase tid } :: post))
    ∧ (∀ (table : List Teacherchannel.TCRow) (g t o tid : Nat) (out : List Teacherchannel.TCRow),
      (∀ r ∈ table, r.teachers ≠ []) →
      Teacherchannel.TeacherChannelDB.add table g t o tid = .ok out →
      ∀ r ∈ out, r.teachers ≠ [])
    ∧ (∀ (table : List Teacherchannel.TCRow) (g t tid : Nat) (out : List Teacherchannel.TCRow),
      (∀ r ∈ table, r.teachers ≠ []) →
      Teacherchannel.TeacherChannelDB.remove table g t tid = .ok out →
      ∀ r ∈ out, r.teachers ≠ []) := by
  refine ⟨fun pre post row g t tid hg ht hpre hpost => ?_,
    fun table g t o tid out hne hadd => ?_, fun table g t tid out hne hrem => ?_⟩
  · have hfilter : (pre ++ row :: post).filter
        (fun r => r.guild_id == g && r.t_channel_id == t) = [row] := by
      rw [List.filter_append, tc_filter_key g t pre hpre]
      rw [List.filter_cons_of_pos (by simp [hg, ht])]
      rw [tc_filter_key g t post hpost]
      rfl
    have hner : ∀ r ∈ pre, r ≠ row := by
      intro r hr he
      exact hpre r hr (he ▸ ⟨hg, ht⟩)
    simp only [Teacherchannel.TeacherChannelDB.remove, hfilter, one_or_none,
      Bind.bind, Except.bind]
    by_cases hlen : (row.teachers.erase tid).length < 1
    · rw [if_pos hlen, if_pos hlen, removeFirst_append_not_mem pre row post hner]
    · rw [if_neg hlen, if_neg hlen,
        replaceFirst_append_not_mem pre row { row with teachers := row.teachers.erase tid } post hner]
  · rcases hfil : table.filter (fun r =>
        r.guild_id == g && r.t_channel_id == t && r.o_channel_id == o) with _ | ⟨row, _ | ⟨row2, rest⟩⟩
    · simp only [Teacherchannel.TeacherChannelDB.add, hfil, one_or_none,
        Bind.bind, Except.bind, Except.ok.injEq] at hadd
      subst hadd
      intro r hr
      rcases List.mem_append.1 hr with hr | hr
      · exact hne r hr
      · rw [List.mem_singleton.1 hr]
        simp
    · by_cases hmem : tid ∈ row.teachers
      · simp only [Teacherchannel.TeacherChannelDB.add, hfil, one_or_none,
          Bind.bind, Except.bind, if_pos hmem, Except.ok.injEq] at hadd
        subst hadd
        exact hne
      · simp only [Teacherchannel.TeacherChannelDB.add, hfil, one_or_none,
          Bind.bind, Except.bind, if_neg hmem, Except.ok.injEq] at hadd
        subst hadd
        intro r hr
        rcases mem_replaceFirst table row _ r hr with hr | hr
        · exact hne r hr
        · rw [hr]
          simp
    · simp only [Teacherchannel.TeacherChannelDB.add, hfil, one_or_none,
        Bind.bind, Except.bind] at hadd
      exact absurd hadd (by simp)
  · rcases hfil : table.filter (fun r =>
        r.guild_id == g && r.t_channel_id == t) with _ | ⟨row, _ | ⟨row2, rest⟩⟩
    · simp only [Teacherchannel.TeacherChannelDB.remove, hfil, one_or_none,
        Bind.bind, Except.bind] at hrem
      exact absurd hrem (by simp)
    · by_cases hlen : (row.teachers.erase tid).length < 1
      · simp only [Teacherchannel.TeacherChannelDB.remove, hfil, one_or_none,
          Bind.bind, Except.bind, if_pos hlen, Except.ok.injEq] at hrem
        subst hrem
        intro r hr
        exact hne r (mem_removeFirst table row r hr)
      · simp only [Teacherchannel.TeacherChannelDB.remove, hfil, one_or_none,
          Bind.bind, Except.bind, if_neg hlen, Except.ok.injEq] at hrem
        subst hrem
        intro r hr
        rcases mem_replaceFirst table row _ r hr with hr | hr
        · exact hne r hr
        · rw [hr]
          intro hempty
          have : (row.teachers.erase tid).length = 0 := by
            have : ({ row with teachers := row.teachers.erase tid} : Teacherchannel.TCRow).teachers = [] := hempty
            simpa using congrArg List.length this
          omega
    · simp only [Teacherchannel.TeacherChannelDB.remove, hfil, one_or_none,
        Bind.bind, Except.bind] at hrem
      exact absurd hrem (by simp)

theorem claim_C9_witness :
    (Teacherchannel.TeacherChannelDB.remove [⟨10, 1, 20, [5]⟩] 1 10 5 =
      .ok (if (([5].erase 5)).length < 1 then ([] : List Teacherchannel.TCRow) ++ []
           else [] ++ ⟨10, 1, 20, [5].erase 5⟩ :: []))
    ∧ (∀ r ∈ ([⟨11, 1, 20, [7]⟩] : List Teacherchannel.TCRow), r.teachers ≠ []) :=
  ⟨claim_C9.1 [] [] ⟨10, 1, 20, [5]⟩ 1 10 5 rfl rfl (by simp) (by simp),
   claim_C9.2.1 [] 1 11 20 7 [⟨11, 1, 20, [7]⟩] (by simp) rfl⟩

/-- C6. Fails on the code for pairs with more than one registered teacher:
`_recreate_ch` iterates over the live `teachers` relationship list of the old
row while `TeacherChannelDB.remove` removes elements from that very list, so
the Python iterator skips every second teacher. Evaluated on a pair
(guild 1, old teacher channel 10, original 20) with two registered teachers
100 and 200 and a fresh clone id 11: only teacher 100 is migrated and granted
permissions; teacher 200 remains associated with the deleted channel id 10
(so the final state is not the claimed full migration, second conjunct). -/
theorem claim_C6_code_bug :
    Teacherchannel.Module._recreate_ch [⟨10, 1, 20, [100, 200]⟩] 1 10 11 20
      = .ok ([⟨10, 1, 20, [200]⟩, ⟨11, 1, 20, [100]⟩], [100])
    ∧ Teacherchannel.Module._recreate_ch [⟨10, 1, 20, [100, 200]⟩] 1 10 11 20
      ≠ .ok ([⟨11, 1, 20, [100, 200]⟩], [100, 200]) := by
  refine ⟨rfl, ?_⟩
  intro h
  rw [show Teacherchannel.Module._recreate_ch [⟨10, 1, 20, [100, 200]⟩] 1 10 11 20
      = .ok ([⟨10, 1, 20, [200]⟩, ⟨11, 1, 20, [100]⟩], [100]) from rfl] at h
  simp at h

theorem syncCategory_name (b a t : Teacherchannel.Channel) :
    (Teacherchannel.syncCategory b a t).name = t.name := by
  unfold Teacherchannel.syncCategory
  split <;> rfl

theorem syncCategory_topic (b a t : Teacherchannel.Channel) :
    (Teacherchannel.syncCategory b a t).topic = t.topic := by
  unfold Teacherchannel.syncCategory
  split <;> rfl

theorem syncCategory_overwrites (b a t : Teacherchannel.Channel) :
    (Teacherchannel.syncCategory b a t).overwrites = t.overwrites := by
  unfold Teacherchannel.syncCategory
  split <;> rfl

theorem syncCategory_category (b a t : Teacherchannel.Channel)
    (hcat : t.category = b.category) :
    (Teacherchannel.syncCategory b a t).category = a.category := by
  unfold Teacherchannel.syncCategory
  split
  · rfl
  · rename_i h
    rw [hcat, Decidable.not_not.1 h]

theorem syncOverwrites_name (b a t : Teacherchannel.Channel) (ts : List Nat) :
    (Teacherchannel.syncOverwrites b a t ts).name = t.name := by
  unfold Teacherchannel.syncOverwrites
  split <;> rfl

theorem syncOverwrites_topic (b a t : Teacherchannel.Channel) (ts : List Nat) :
    (Teacherchannel.syncOverwrites b a t ts).topic = t.topic := by
  unfold Teacherchannel.syncOverwrites
  split <;> rfl

theorem syncOverwrites_category (b a t : Teacherchannel.Channel) (ts : List Nat) :
    (Teacherchannel.syncOverwrites b a t ts).category = t.category := by
  unfold Teacherchannel.syncOverwrites
  split <;> rfl

theorem syncName_topic (b a t : Teacherchannel.Channel) :
    (Teacherchannel.syncName b a t).topic = t.topic := by
  unfold Teacherchannel.syncName
  split <;> rfl

theorem syncName_category (b a t : Teacherchannel.Channel) :
    (Teacherchannel.syncName b a t).category = t.category := by
  unfold Teacherchannel.syncName
  split <;> rfl

theorem syncName_overwrites (b a t : Teacherchannel.Channel) :
    (Teacherchannel.syncName b a t).overwrites = t.overwrites := by
  unfold Teacherchannel.syncName
  split <;> rfl

theorem syncName_name (b a t : Teacherchannel.Channel)
    (hname : t.name = b.name ++ Teacherchannel.appendix)
    (hguard : a.name = b.name ∨ endswith b.name Teacherchannel.appendix = false) :
    (Teacherchannel.syncName b a t).name = a.name ++ Teacherchannel.appendix := by
  unfold Teacherchannel.syncName
  split
  · rfl
  · rename_i h
    rcases Decidable.not_and_iff_or_not.1 h with h | h
    · rw [hname, Decidable.not_not.1 h]
    · rcases hguard with hg | hg
      · rw [hname, hg]
      · exact absurd hg h

theorem syncTopic_name (b a t : Teacherchannel.Channel) :
    (Teacherchannel.syncTopic b a t).name = t.name := by
  unfold Teacherchannel.syncTopic
  split <;> rfl

theorem syncTopic_category (b a t : Teacherchannel.Channel) :
    (Teacherchannel.syncTopic b a t).category = t.category := by
  unfold Teacherchannel.syncTopic
  split <;> rfl

theorem syncTopic_overwrites (b a t : Teacherchannel.Channel) :
    (Teacherchannel.syncTopic b a t).overwrites = t.overwrites := by
  unfold Teacherchannel.syncTopic
  split <;> rfl

theorem syncTopic_topic (b a t : Teacherchannel.Channel)
    (htopic : t.topic = b.topic) :
    (Teacherchannel.syncTopic b a t).topic = a.topic := by
  unfold Teacherchannel.syncTopic
  split
  · rfl
  · rename_i h
    rw [htopic, Decidable.not_not.1 h]

/-- C4 counterexample. `_sync` is a diff-and-patch: a field of the teacher
channel is only rewritten when that field changed on the original, so a
teacher channel whose topic has drifted is not repaired by a sync triggered
by a name change — the claimed unconditional postcondition fails. Here the
original was renamed "math" → "maths" while both topics are "t", and the
topic of the teacher channel had drifted to "old". -/
theorem claim_C4_counterexample :
    ¬ ((Teacherchannel.Module._sync ⟨"math", "t", 1, ∅⟩ ⟨"maths", "t", 1, ∅⟩
          ⟨"math_teacher", "old", 1, ∅⟩ []).category
        = (⟨"maths", "t", 1, ∅⟩ : Teacherchannel.Channel).category
      ∧ (Teacherchannel.Module._sync ⟨"math", "t", 1, ∅⟩ ⟨"maths", "t", 1, ∅⟩
          ⟨"math_teacher", "old", 1, ∅⟩ []).topic
        = (⟨"maths", "t", 1, ∅⟩ : Teacherchannel.Channel).topic
      ∧ (endswith "math" Teacherchannel.appendix = false →
          (Teacherchannel.Module._sync ⟨"math", "t", 1, ∅⟩ ⟨"maths", "t", 1, ∅⟩
            ⟨"math_teacher", "old", 1, ∅⟩ []).name
          = "maths" ++ Teacherchannel.appendix)) := by
  intro h
  have := h.2.1
  revert this
  decide

/-- C4 as amended. When the teacher channel mirrored the pre-change state of the original
channel (same category and topic, name = old name + "_teacher"), then after
`_sync` its category and topic equal those of the original, and — when the
change was not itself a rename away from an "_teacher" name — its name is
the new name of the original with "_teacher"
appended. -/
theorem claim_C4_amended (b a t : Teacherchannel.Channel) (teachers : List Nat)
    (hcat : t.category = b.category) (htopic : t.topic = b.topic)
    (hname : t.name = b.name ++ Teacherchannel.appendix) :
    (Teacherchannel.Module._sync b a t teachers).category = a.category
    ∧ (Teacherchannel.Module._sync b a t teachers).topic = a.topic
    ∧ ((a.name = b.name ∨ endswith b.name Teacherchannel.appendix = false) →
        (Teacherchannel.Module._sync b a t teachers).name
          = a.name ++ Teacherchannel.appendix) := by
  unfold Teacherchannel.Module._sync
  refine ⟨?_, ?_, fun hguard => ?_⟩
  · rw [syncTopic_category, syncName_category, syncOverwrites_category]
    exact syncCategory_category b a t hcat
  · apply syncTopic_topic
    rw [syncName_topic, syncOverwrites_topic, syncCategory_topic]
    exact htopic
  · rw [syncTopic_name]
    apply syncName_name
    · rw [syncOverwrites_name, syncCategory_name]
      exact hname
    · exact hguard

theorem claim_C4_witness :
    (Teacherchannel.Module._sync ⟨"m", "t", 1, ∅⟩ ⟨"m2", "t2", 2, ∅⟩
        ⟨"m_teacher", "t", 1, ∅⟩ []).category
      = (⟨"m2", "t2", 2, ∅⟩ : Teacherchannel.Channel).category
    ∧ (Teacherchannel.Module._sync ⟨"m", "t", 1, ∅⟩ ⟨"m2", "t2", 2, ∅⟩
        ⟨"m_teacher", "t", 1, ∅⟩ []).topic
      = (⟨"m2", "t2", 2, ∅⟩ : Teacherchannel.Channel).topic
    ∧ ((("m2" : String) = "m" ∨ endswith "m" Teacherchannel.appendix = false) →
        (Teacherchannel.Module._sync ⟨"m", "t", 1, ∅⟩ ⟨"m2", "t2", 2, ∅⟩
          ⟨"m_teacher", "t", 1, ∅⟩ []).name = "m2" ++ Teacherchannel.appendix) :=
  claim_C4_amended ⟨"m", "t", 1, ∅⟩ ⟨"m2", "t2", 2, ∅⟩ ⟨"m_teacher", "t", 1, ∅⟩ []
    rfl rfl (by decide)

namespace Teacherchannel

theorem syncNeg_lookup_skip (after : List (Sigma fun _ : Nat => Nat)) (ts : List Nat) :
    ∀ (iter : List (Sigma fun _ : Nat => Nat)) (t : Overwrites) (x : Nat),
      (∀ ow : Nat, (⟨x, ow⟩ : Sigma fun _ : Nat => Nat) ∈ iter →
        ((⟨x, ow⟩ : Sigma fun _ : Nat => Nat) ∈ after ∨ x ∈ ts)) →
      (syncNeg after ts iter t).lookup x = t.lookup x
  | [], t, x, _ => rfl
  | p :: iter, t, x, h => by
    simp only [syncNeg]
    split
    · exact syncNeg_lookup_skip after ts iter t x
        (fun ow how => h ow (List.mem_cons_of_mem p how))
    · rename_i hskip
      rw [syncNeg_lookup_skip after ts iter _ x
        (fun ow how => h ow (List.mem_cons_of_mem p how))]
      have hne : x ≠ p.1 := by
        intro he
        have hp : (⟨x, p.2⟩ : Sigma fun _ : Nat => Nat) = p := by
          rw [he]
        have := h p.2 (by rw [hp]; exact List.mem_cons_self p iter)
        rw [hp, he] at this
        exact hskip this
      exact AList.lookup_erase_ne hne

theorem syncNeg_lookup_none (after : List (Sigma fun _ : Nat => Nat)) (ts : List Nat) :
    ∀ (iter : List (Sigma fun _ : Nat => Nat)) (t : Overwrites) (x ow : Nat),
      iter.NodupKeys →
      (⟨x, ow⟩ : Sigma fun _ : Nat => Nat) ∈ iter →
      (⟨x, ow⟩ : Sigma fun _ : Nat => Nat) ∉ after → x ∉ ts →
      (syncNeg after ts iter t).lookup x = none
  | [], _, x, ow, _, hmem, _, _ => absurd hmem (List.not_mem_nil _)
  | p :: iter, t, x, ow, hnd, hmem, hnot, hts => by
    simp only [syncNeg]
    rcases List.mem_cons.1 hmem with he | hmem2
    · have hcond : ¬(p ∈ after ∨ p.1 ∈ ts) := by
        rw [← he]
        rintro (hc | hc)
        · exact hnot hc
        · exact hts hc
      rw [if_neg hcond]
      rw [syncNeg_lookup_skip after ts iter _ x ?frame]
      case frame =>
        intro ow2 how2
        exfalso
        have hx2 : x ∈ iter.keys := List.mem_keys_of_mem how2
        have : p.1 ∉ iter.keys := List.not_mem_keys_of_nodupKeys_cons hnd
        rw [← he] at this
        exact this hx2
      rw [← he]
      exact AList.lookup_erase x t
    · have hnd2 := List.nodupKeys_of_nodupKeys_cons hnd
      split <;> exact syncNeg_lookup_none after ts iter _ x ow hnd2 hmem2 hnot hts

theorem syncPos_lookup_skip (before : List (Sigma fun _ : Nat => Nat)) (ts : List Nat) :
    ∀ (iter : List (Sigma fun _ : Nat => Nat)) (t : Overwrites) (x : Nat),
      (∀ ow : Nat, (⟨x, ow⟩ : Sigma fun _ : Nat => Nat) ∈ iter →
        ((⟨x, ow⟩ : Sigma fun _ : Nat => Nat) ∈ before ∨ x ∈ ts)) →
      (syncPos before ts iter t).lookup x = t.lookup x
  | [], t, x, _ => rfl
  | p :: iter, t, x, h => by
    simp only [syncPos]
    split
    · exact syncPos_lookup_skip before ts iter t x
        (fun ow how => h ow (List.mem_cons_of_mem p how))
    · rename_i hskip
      rw [syncPos_lookup_skip before ts iter _ x
        (fun ow how => h ow (List.mem_cons_of_mem p how))]
      have hne : x ≠ p.1 := by
        intro he
        have hp : (⟨x, p.2⟩ : Sigma fun _ : Nat => Nat) = p := by
          rw [he]
        have := h p.2 (by rw [hp]; exact List.mem_cons_self p iter)
        rw [hp, he] at this
        exact hskip this
      exact AList.lookup_insert_ne hne

theorem syncPos_lookup_set (before : List (Sigma fun _ : Nat => Nat)) (ts : List Nat) :
    ∀ (iter : List (Sigma fun _ : Nat => Nat)) (t : Overwrites) (x ow : Nat),
      iter.NodupKeys →
      (⟨x, ow⟩ : Sigma fun _ : Nat => Nat) ∈ iter →
      (⟨x, ow⟩ : Sigma fun _ : Nat => Nat) ∉ before → x ∉ ts →
      (syncPos before ts iter t).lookup x = some ow
  | [], _, x, ow, _, hmem, _, _ => absurd hmem (List.not_mem_nil _)
  | p :: iter, t, x, ow, hnd, hmem, hnot, hts => by
    simp only [syncPos]
    rcases List.mem_cons.1 hmem with he | hmem2
    · have hcond : ¬(p ∈ before ∨ p.1 ∈ ts) := by
        rw [← he]
        rintro (hc | hc)
        · exact hnot hc
        · exact hts hc
      rw [if_neg hcond]
      rw [syncPos_lookup_skip before ts iter _ x ?frame]
      case frame =>
        intro ow2 how2
        exfalso
        have hx2 : x ∈ iter.keys := List.mem_keys_of_mem how2
        have : p.1 ∉ iter.keys := List.not_mem_keys_of_nodupKeys_cons hnd
        rw [← he] at this
        exact this hx2
      have hx1 : p.1 = x := by rw [← he]
      have hx2 : p.2 = ow := by rw [← he]  -- hmm dependent; see below
      rw [← he]
      exact AList.lookup_insert t
    · have hnd2 := List.nodupKeys_of_nodupKeys_cons hnd
      split <;> exact syncPos_lookup_set before ts iter _ x ow hnd2 hmem2 hnot hts

theorem overwrites_mk (c : Channel) (o : Overwrites) :
    ({ c with overwrites := o } : Channel).overwrites = o := rfl

end Teacherchannel

/-- C5. Permission-overwrite mirroring is framed by the teacher set: `_sync`
leaves the overwrite of every registered teacher on the teacher channel
unchanged, while for every other target it copies the original channel
overwrite changes — a target removed from the original ends up with no
overwrite on the teacher channel, and a target added or edited on the
original ends up with the new overwrite. -/
theorem claim_C5 (b a t : Teacherchannel.Channel) (teachers : List Nat) :
    (∀ x ∈ teachers,
      (Teacherchannel.Module._sync b a t teachers).overwrites.lookup x
        = t.overwrites.lookup x)
    ∧ (∀ x ow : Nat, x ∉ teachers →
        (⟨x, ow⟩ : Sigma fun _ : Nat => Nat) ∈ b.overwrites.entries →
        x ∉ a.overwrites →
        (Teacherchannel.Module._sync b a t teachers).overwrites.lookup x = none)
    ∧ (∀ x ow : Nat, x ∉ teachers →
        (⟨x, ow⟩ : Sigma fun _ : Nat => Nat) ∈ a.overwrites.entries →
        (⟨x, ow⟩ : Sigma fun _ : Nat => Nat) ∉ b.overwrites.entries →
        (Teacherchannel.Module._sync b a t teachers).overwrites.lookup x = some ow) := by
  have hov : (Teacherchannel.Module._sync b a t teachers).overwrites
      = (Teacherchannel.syncOverwrites b a (Teacherchannel.syncCategory b a t) teachers).overwrites := by
    unfold Teacherchannel.Module._sync
    rw [syncTopic_overwrites, syncName_overwrites]
  refine ⟨fun x hx => ?_, fun x ow hx hb hxa => ?_, fun x ow hx ha hnb => ?_⟩
  · rw [hov]
    unfold Teacherchannel.syncOverwrites
    by_cases hd : Teacherchannel.dictEq a.overwrites b.overwrites
    · rw [if_pos hd, syncCategory_overwrites]
    · rw [if_neg hd, Teacherchannel.overwrites_mk]
      rw [Teacherchannel.syncPos_lookup_skip _ _ _ _ x (fun ow2 _ => Or.inr hx)]
      rw [Teacherchannel.syncNeg_lookup_skip _ _ _ _ x (fun ow2 _ => Or.inr hx)]
      rw [syncCategory_overwrites]
  · rw [hov]
    unfold Teacherchannel.syncOverwrites
    by_cases hd : Teacherchannel.dictEq a.overwrites b.overwrites
    · exfalso
      have hxk : x ∈ a.overwrites.entries.keys := List.mem_keys_of_mem (hd.2 _ hb)
      exact hxa ((AList.mem_keys).2 hxk)
    · rw [if_neg hd, Teacherchannel.overwrites_mk]
      rw [Teacherchannel.syncPos_lookup_skip _ _ _ _ x ?noset]
      case noset =>
        intro ow2 how2
        exact absurd ((AList.mem_keys).2 (List.mem_keys_of_mem how2)) hxa
      exact Teacherchannel.syncNeg_lookup_none _ _ _ _ x ow b.overwrites.nodupKeys hb
        (fun hc => hxa ((AList.mem_keys).2 (List.mem_keys_of_mem hc))) hx
  · rw [hov]
    unfold Teacherchannel.syncOverwrites
    by_cases hd : Teacherchannel.dictEq a.overwrites b.overwrites
    · exact absurd (hd.1 _ ha) hnb
    · rw [if_neg hd, Teacherchannel.overwrites_mk]
      exact Teacherchannel.syncPos_lookup_set _ _ _ _ x ow a.overwrites.nodupKeys ha hnb hx

theorem claim_C5_witness :
    ((Teacherchannel.Module._sync ⟨"n", "t", 1, AList.insert 1 10 ∅⟩
        ⟨"n", "t", 1, AList.insert 2 20 ∅⟩ ⟨"nt", "t", 1, AList.insert 5 50 ∅⟩
        [5]).overwrites.lookup 5
      = ((⟨"nt", "t", 1, AList.insert 5 50 ∅⟩ :
          Teacherchannel.Channel)).overwrites.lookup 5)
    ∧ ((Teacherchannel.Module._sync ⟨"n", "t", 1, AList.insert 1 10 ∅⟩
        ⟨"n", "t", 1, AList.insert 2 20 ∅⟩ ⟨"nt", "t", 1, AList.insert 5 50 ∅⟩
        [5]).overwrites.lookup 1 = none)
    ∧ ((Teacherchannel.Module._sync ⟨"n", "t", 1, AList.insert 1 10 ∅⟩
        ⟨"n", "t", 1, AList.insert 2 20 ∅⟩ ⟨"nt", "t", 1, AList.insert 5 50 ∅⟩
        [5]).overwrites.lookup 2 = some 20) := by
  refine ⟨(claim_C5 ⟨"n", "t", 1, AList.insert 1 10 ∅⟩ ⟨"n", "t", 1, AList.insert 2 20 ∅⟩
      ⟨"nt", "t", 1, AList.insert 5 50 ∅⟩ [5]).1 5 (by decide),
    (claim_C5 ⟨"n", "t", 1, AList.insert 1 10 ∅⟩ ⟨"n", "t", 1, AList.insert 2 20 ∅⟩
      ⟨"nt", "t", 1, AList.insert 5 50 ∅⟩ [5]).2.1 1 10 (by decide) (by decide) ?_,
    (claim_C5 ⟨"n", "t", 1, AList.insert 1 10 ∅⟩ ⟨"n", "t", 1, AList.insert 2 20 ∅⟩
      ⟨"nt", "t", 1, AList.insert 5 50 ∅⟩ [5]).2.2 2 20 (by decide) (by decide) (by decide)⟩
  intro hmem
  rw [AList.mem_keys] at hmem
  revert hmem
  decide

end Pumpkin
